import Mathlib

/-!
# Verification of the mpv-subtitleminer IPC session layer

Shallow embedding of the transport code in `src/mpv_stream.rs` and the
process bootstrap in `src/main.rs`, together with theorems settling the
frozen claims about the specification.

Modelling conventions:
* A byte is a `Nat`; the newline byte is `10`.
* The read half of the transport (`BufReader<ReadHalf<Inner>>`) is modelled
  as the list of bytes still to be delivered before end-of-stream; the end
  of the list is end-of-stream (the peer has disconnected / closed).
* The write half is modelled by the list of bytes the peer has received so
  far, together with a schedule of partial-write acceptances by the OS.
* `io::Result` is `Except IoError`; `io::ErrorKind` is the inductive
  `ErrorKind` (the kinds the spec names, plus a catch-all code).
* Rust `String` values (paths, error messages) are modelled as `List Char`
  (every Lean `Char` list is valid Unicode text, matching Rust `String`).
-/

set_option autoImplicit false

namespace SubtitleMiner

/-- `io::ErrorKind`: the kinds the spec distinguishes, plus a catch-all. -/
inductive ErrorKind where
  | notFound
  | permissionDenied
  | connectionRefused
  | writeZero
  | other (code : Nat)
  deriving DecidableEq, Repr

/-- `std::io::Error`, reduced to the two observations the claims are about:
its `kind()` and its display message. -/
structure IoError where
  kind : ErrorKind
  msg : List Char
  deriving DecidableEq, Repr

deriving instance DecidableEq for Except

/-! ## Reading: `MpvStream::read_line` (src/mpv_stream.rs lines 25-27)

The method delegates to tokio's `AsyncBufReadExt::read_line`, whose
documented behaviour is: read bytes from the stream until the newline
delimiter (the `0xA` byte) or EOF is reached, append all bytes read, up to
and including the delimiter (if found), to the caller's buffer, and return
`Ok(n)` where `n` is the number of bytes appended by this call.  At EOF with
nothing read it returns `Ok(0)`.  Errors arise only from transport I/O
faults or invalid UTF-8, neither of which occurs for the in-memory,
text-valid streams modelled here, so the embedding always returns `.ok`. -/

/-- Split a byte stream at the first newline: the first component is the
bytes delivered to the caller (up to and including the first `10`, or the
whole stream when no newline arrives before end-of-stream), the second the
bytes still in the stream afterwards. -/
def takeLine : List Nat → List Nat × List Nat
  | [] => ([], [])
  | b :: rest =>
    if b = 10 then ([10], rest)
    else
      let p := takeLine rest
      (b :: p.1, p.2)

/-- `MpvStream::read_line(&mut self, buf)`: appends one line (newline
included, when present) to `buf` and returns the updated buffer, the number
of bytes appended, and the remaining stream. -/
def read_line (stream : List Nat) (buf : List Nat) :
    Except IoError (List Nat × Nat × List Nat) :=
  let p := takeLine stream
  .ok (buf ++ p.1, p.1.length, p.2)

/-! ## Writing: `MpvStream::write_all` (src/mpv_stream.rs lines 29-31)

The method delegates to tokio's `AsyncWriteExt::write_all`, which loops over
the underlying `poll_write`: each poll may accept only part of the remaining
buffer (a partial write), in which case the loop retries with the rest; a
poll accepting `0` bytes yields a `WriteZero` error; an I/O error aborts the
loop.  The OS-side nondeterminism is modelled by an explicit schedule of
`WriteStep`s. -/

/-- One response of the underlying stream to a `poll_write`: it accepts
`k` bytes (capped at the remaining buffer length), or fails. -/
inductive WriteStep where
  | accept (k : Nat)
  | fail (e : IoError)
  deriving DecidableEq, Repr

/-- Error returned when the peer accepts zero bytes (tokio maps this to
`ErrorKind::WriteZero`, "failed to write whole buffer"). -/
def writeZeroError : IoError :=
  ⟨ErrorKind.writeZero, "failed to write whole buffer".data⟩

/-- Error standing for a write that can never complete because the schedule
is exhausted while bytes remain: in reality the call pends forever, so it in
particular never returns success. -/
def stalledError : IoError :=
  ⟨ErrorKind.other 0, "write stalled".data⟩

/-- `MpvStream::write_all(&mut self, buf)`: drive tokio's `write_all` loop
under the schedule `steps`, starting from bytes `peer` already received by
the peer; returns the peer's final byte sequence on success. -/
def write_all (steps : List WriteStep) (peer : List Nat) (buf : List Nat) :
    Except IoError (List Nat) :=
  match buf with
  | [] => .ok peer
  | _ :: _ =>
    match steps with
    | [] => .error stalledError
    | .fail e :: _ => .error e
    | .accept k :: rest =>
      if k = 0 then .error writeZeroError
      else write_all rest (peer ++ buf.take k) (buf.drop k)

/-! ## Connecting: `MpvStream::connect_inner` (src/mpv_stream.rs lines 33-63)

The unix variant connects a `UnixStream` to `path`; the windows variant
first normalizes `path` to a named-pipe path and opens a pipe client.  In
both variants a failing OS attempt is wrapped with
`io::Error::new(e.kind(), format!("Failed to connect to ... at ... : e"))`:
the kind is taken unchanged from the OS error and the message embeds the
attempted path.  The OS-level connect/open is modelled as an explicit
argument (a result for unix, a path-indexed result for windows). -/

/-- `e.kind()` followed by the `format!` of the unix branch:
`Failed to connect to mpv socket at <q>path<q>: <oserror>` where `<q>` is an
apostrophe (written `'`). -/
def wrapUnixError (path : List Char) (e : IoError) : IoError :=
  ⟨e.kind,
    "Failed to connect to mpv socket at '".data ++ path
      ++ "': ".data ++ e.msg⟩

/-- `MpvStream::connect_inner` (unix): `osConnect` is the result of
`UnixStream::connect(path)`; a failure is wrapped by `map_err`. -/
def connect_inner_unix (path : List Char) (osConnect : Except IoError Unit) :
    Except IoError Unit :=
  osConnect.mapError (wrapUnixError path)

/-- Is `c` a path separator?  `std::path` on Windows accepts both `/` and
`\` as separators. -/
def isSepChar (c : Char) : Bool :=
  c == '/' || c == '\\'

/-- Split a path into chunks between separators (like
`"a/b".split(sep)`): consecutive separators, or separators at either end,
produce empty chunks. -/
def splitComponents : List Char → List (List Char)
  | [] => [[]]
  | c :: cs =>
    if isSepChar c then [] :: splitComponents cs
    else
      match splitComponents cs with
      | [] => [[c]]
      | h :: t => (c :: h) :: t

/-- `std::path::Path::file_name` on the paths this program meets: the last
component after dropping empty chunks (repeated or trailing separators) and
`.` chunks (normalized away), and `none` when no component remains or the
last one is `..` (Rust returns `None` for a path terminating in `..`, in a
root, or empty).  Windows drive/UNC/device prefixes (`C:`, `\\server\...`)
are not modelled: no claim and no default path of this program contains
one. -/
def file_name (path : List Char) : Option (List Char) :=
  let cs := (splitComponents path).filter (fun c => c != [] && c != ['.'])
  match cs.getLast? with
  | none => none
  | some c => if c = ['.', '.'] then none else some c

/-- The Windows named-pipe namespace `\\.\pipe\`. -/
def pipeNS : List Char := "\\\\.\\pipe\\".data

/-- Does `l` start with `pre`? (`str::starts_with`). -/
def startsWith : List Char → List Char → Bool
  | _, [] => true
  | [], _ :: _ => false
  | c :: cs, p :: ps => c == p && startsWith cs ps

/-- The `pipe_path` computation of the windows branch (lines 45-53): a path
already in the pipe namespace is used unchanged; otherwise the namespace is
prepended to `Path::new(path).file_name()`, falling back to `"mpv-socket"`
when no file name can be extracted.  (`OsStr::to_str` always succeeds here:
the model's strings are valid Unicode.) -/
def windowsPipePath (path : List Char) : List Char :=
  if startsWith path pipeNS then path
  else pipeNS ++ (file_name path).getD "mpv-socket".data

/-- The wrapped error of the windows branch:
`Failed to connect to mpv pipe at <q>pipe_path<q>: <oserror>`. -/
def wrapWindowsError (pipe_path : List Char) (e : IoError) : IoError :=
  ⟨e.kind,
    "Failed to connect to mpv pipe at '".data ++ pipe_path
      ++ "': ".data ++ e.msg⟩

/-- `MpvStream::connect_inner` (windows): normalize the path, open the pipe
at the normalized path (`osOpen` is `ClientOptions::new().open(&pipe_path)`
as a function of the path it is given), and wrap a failure with the
attempted pipe path. -/
def connect_inner_windows (path : List Char)
    (osOpen : List Char → Except IoError Unit) : Except IoError Unit :=
  let pipe_path := windowsPipePath path
  (osOpen pipe_path).mapError (wrapWindowsError pipe_path)

/-! ## Configuration: `Args` (src/main.rs lines 8-27)

The clap-derived argument struct.  Each field with a `default_value`
receives that value when the caller does not supply one; `expected_mpv_pid`
has no default and parses to `None` when absent.  The parse itself
(tokenizing a command line) is clap's, not this repository's; the embedding
takes each argument as already either supplied (`some`) or absent
(`none`). -/

/-- The parsed arguments of `main.rs`. -/
structure Args where
  socket_path : List Char
  port : Nat
  ffmpeg_path : List Char
  expected_mpv_pid : Option Nat
  deriving DecidableEq, Repr

/-- Default socket path on unix (`default_value = "/tmp/mpv-socket"`). -/
def defaultSocketPathUnix : List Char := "/tmp/mpv-socket".data

/-- Default socket path on windows
(`default_value = r"\\.\pipe\mpv-socket"`). -/
def defaultSocketPathWindows : List Char := "\\\\.\\pipe\\mpv-socket".data

/-- `Args::parse` after clap's defaulting, on either platform
(`windows = true` selects the windows `cfg_attr` default): a supplied value
is kept, an absent one falls back to the field's `default_value`;
`expected_mpv_pid` stays absent when not given. -/
def parseArgs (windows : Bool) (socket_path : Option (List Char))
    (port : Option Nat) (ffmpeg_path : Option (List Char))
    (expected_mpv_pid : Option Nat) : Args :=
  { socket_path :=
      socket_path.getD
        (if windows then defaultSocketPathWindows else defaultSocketPathUnix)
    port := port.getD 61777
    ffmpeg_path := ffmpeg_path.getD "ffmpeg".data
    expected_mpv_pid := expected_mpv_pid }

/-! ## Session establishment and the identity verifier

The Identity Verifier and the Session constructor live in `event_loop.rs`,
which is not part of the visible source (only `main.rs` declares and calls
`run_server`); they are modelled from the spec (§4.2, §7). -/

/-- Errors fatal to Session creation (spec §7): the transport connect
failed, or the identity check rejected the endpoint. -/
inductive SessionError where
  | connectError (e : IoError)
  | identityMismatch (expected observed : Nat)
  deriving DecidableEq, Repr

/-- What establishing a Session did: whether a Session was created (`.ok`)
or which fatal error occurred, which commands were sent on the transport
during establishment, and whether the transport was closed immediately. -/
structure EstablishOutcome where
  result : Except SessionError Unit
  commandsSent : List (List Char)
  transportClosed : Bool
  deriving DecidableEq, Repr

/-- Modelled from the spec: the Identity Verifier of §4.2 (absent from
`src/`; `event_loop.rs` is not visible).  "If `expected_pid` is absent,
verification is a no-op"; if present, the resolved owner of the endpoint is
compared with it, and a mismatch yields `IdentityMismatch` carrying the
expected and observed pids. -/
def verifyIdentity (expected_pid : Option Nat) (ownerPid : Nat) :
    Except SessionError Unit :=
  match expected_pid with
  | none => .ok ()
  | some p => if p = ownerPid then .ok () else .error (.identityMismatch p ownerPid)

/-- Modelled from the spec: Session establishment (§4.2, §2; absent from
`src/`).  Connect the transport (`connectResult` is the transport connect's
outcome; `ownerPid` the process owning the endpoint), then verify identity
strictly before any message is sent; on mismatch the transport is closed
immediately and no Session is created; on success a Session is handed to
the caller with no command having been sent during establishment. -/
def establishSession (connectResult : Except IoError Unit)
    (expected_pid : Option Nat) (ownerPid : Nat) : EstablishOutcome :=
  match connectResult with
  | .error e => ⟨.error (.connectError e), [], false⟩
  | .ok _ =>
    match verifyIdentity expected_pid ownerPid with
    | .error e => ⟨.error e, [], true⟩
    | .ok _ => ⟨.ok (), [], false⟩

/-! ## The hosting process: `main` (src/main.rs lines 29-42)

`main` calls `run_server(&args.socket_path, args.port, args.expected_mpv_pid)`
and, when it returns `Err(e)`, prints `Error: e` to stderr and exits with
status 1; otherwise the process ends normally (status 0).  `run_server`
itself is in the invisible `event_loop.rs` and is modelled from the spec. -/

/-- Modelled from the spec: `run_server` (`event_loop.rs`, not in `src/`).
Per §7, the hosting process's fatal path is taken only when Session
establishment itself fails; once established, every per-request failure is
delivered to its caller as an ordinary result (`requestResults` is the list
of per-request outcomes the established session serves) and the server
returns without error. -/
def run_server (establish : EstablishOutcome)
    (requestResults : List (Except IoError (List Char))) :
    Except SessionError Unit :=
  match establish.result with
  | .error e => .error e
  | .ok _ => .ok ()

/-- `main` (lines 38-41): the process's exit status and whether a fatal
error was reported on stderr. -/
def mainRun (establish : EstablishOutcome)
    (requestResults : List (Except IoError (List Char))) : Nat × Bool :=
  match run_server establish requestResults with
  | .error _ => (1, true)
  | .ok _ => (0, false)

/-! ## Helper lemmas -/

theorem takeLine_no_newline :
    ∀ (l : List Nat), (∀ b ∈ l, b ≠ 10) → takeLine l = (l, []) := by
  intro l
  induction l with
  | nil => intro _; rfl
  | cons b rest ih =>
    intro h
    have hb : b ≠ 10 := h b (List.mem_cons_self b rest)
    have ih2 := ih (fun x hx => h x (List.mem_cons_of_mem b hx))
    simp [takeLine, hb, ih2]

theorem takeLine_with_newline :
    ∀ (front rest : List Nat), (∀ b ∈ front, b ≠ 10) →
      takeLine (front ++ 10 :: rest) = (front ++ [10], rest) := by
  intro front rest
  induction front with
  | nil => intro _; simp [takeLine]
  | cons b f ih =>
    intro h
    have hb : b ≠ 10 := h b (List.mem_cons_self b f)
    have ih2 := ih (fun x hx => h x (List.mem_cons_of_mem b hx))
    simp [takeLine, hb, ih2]

theorem splitComponents_ne_nil : ∀ (l : List Char), splitComponents l ≠ [] := by
  intro l
  cases l with
  | nil => simp [splitComponents]
  | cons c cs =>
    simp only [splitComponents]
    split
    · simp
    · split
      · simp
      · simp

theorem splitComponents_sepFree :
    ∀ (n : List Char), (∀ c ∈ n, isSepChar c = false) →
      splitComponents n = [n] := by
  intro n
  induction n with
  | nil => intro _; rfl
  | cons c cs ih =>
    intro h
    have hc : isSepChar c = false := h c (List.mem_cons_self c cs)
    have ih2 := ih (fun x hx => h x (List.mem_cons_of_mem c hx))
    simp [splitComponents, hc, ih2]

theorem splitComponents_append :
    ∀ (d n : List Char) (sep : Char), isSepChar sep = true →
      (∀ c ∈ n, isSepChar c = false) →
      splitComponents (d ++ sep :: n) = splitComponents d ++ [n] := by
  intro d n sep hsep hn
  induction d with
  | nil =>
    simp only [List.nil_append, splitComponents, hsep, if_true]
    rw [splitComponents_sepFree n hn]
    rfl
  | cons c d2 ih =>
    cases hc : isSepChar c with
    | true => simp [splitComponents, hc, ih]
    | false =>
      obtain ⟨h0, t0, ht⟩ : ∃ h0 t0, splitComponents d2 = h0 :: t0 := by
        cases hsd : splitComponents d2 with
        | nil => exact absurd hsd (splitComponents_ne_nil d2)
        | cons a b => exact ⟨a, b, rfl⟩
      simp [splitComponents, hc, ih, ht]

theorem file_name_last_component :
    ∀ (d n : List Char) (sep : Char), isSepChar sep = true →
      (∀ c ∈ n, isSepChar c = false) → n ≠ [] → n ≠ ['.'] →
      file_name (d ++ sep :: n) = if n = ['.', '.'] then none else some n := by
  intro d n sep hsep hn hne hdot
  unfold file_name
  rw [splitComponents_append d n sep hsep hn, List.filter_append]
  have hp : (n != [] && n != ['.']) = true := by
    simp [bne_iff_ne, hne, hdot]
  simp [List.filter, hp, List.getLast?_concat]

/-! ## Claim theorems -/

/-- C1 (counterexample): `read_line` does NOT return the frame without its
trailing newline: reading the complete frame `hi\n` appends `104, 105, 10`
— newline included — and counts 3 bytes, not the newline-stripped
`104, 105` with count 2 that the claim describes. -/
theorem read_line_strips_newline_cex :
    read_line [104, 105, 10] [] = .ok ([104, 105, 10], 3, []) ∧
    read_line [104, 105, 10] [] ≠ .ok ([104, 105], 2, []) := by decide

/-- C1 (amended): for every successful read of a complete frame,
`read_line` returns the frame to the caller INCLUDING its trailing newline
character: the bytes of the frame up to and including the delimiter are
appended to the buffer and the returned count includes the newline byte. -/
theorem read_line_complete_frame (front rest buf : List Nat)
    (h : ∀ b ∈ front, b ≠ 10) :
    read_line (front ++ 10 :: rest) buf =
      .ok (buf ++ (front ++ [10]), front.length + 1, rest) := by
  unfold read_line
  rw [takeLine_with_newline front rest h]
  simp

/-- C1 (witness): reading the frame `hi\n` (followed by more bytes) into
the buffer `[1]`. -/
theorem read_line_complete_frame_witness :
    read_line ([104, 105] ++ 10 :: [120]) [1] =
      .ok ([1] ++ ([104, 105] ++ [10]), [104, 105].length + 1, [120]) :=
  read_line_complete_frame [104, 105] [120] [1] (by decide)

/-- C2 (counterexample): at end-of-stream, and when the peer disconnects
mid-line (stream ends without a newline), `read_line` RETURNS SUCCESS — it
does not fail with a `Closed` (or any) error: tokio's `read_line` yields
`Ok(0)` at EOF and `Ok(n)` for a partial final line. -/
theorem read_line_eof_ok_cex :
    read_line [] [] = .ok ([], 0, []) ∧ (read_line [] []).isOk = true ∧
    read_line [104, 105] [] = .ok ([104, 105], 2, []) ∧
    (read_line [104, 105] []).isOk = true := by decide

/-- C2 (amended): when the peer has disconnected mid-line or the stream is
at end-of-stream (no newline remains before end-of-stream), `read_line`
returns success: `0` bytes at end-of-stream, or the partial final line
without a trailing newline; the caller must detect closure from that
return value, not from an error. -/
theorem read_line_closed_returns_ok (stream buf : List Nat)
    (h : ∀ b ∈ stream, b ≠ 10) :
    read_line stream buf = .ok (buf ++ stream, stream.length, []) := by
  unfold read_line
  rw [takeLine_no_newline stream h]

/-- C2 (witness): the peer disconnected after sending `hi` with no
newline. -/
theorem read_line_closed_returns_ok_witness :
    read_line [104, 105] [7] = .ok ([7] ++ [104, 105], [104, 105].length, []) :=
  read_line_closed_returns_ok [104, 105] [7] (by decide)

/-- C9: `read_line` appends to the caller's buffer without clearing it —
the prior contents survive as a prefix of the new contents — and the
returned count is exactly the number of bytes appended by this call. -/
theorem read_line_appends_without_clearing (stream buf out rest : List Nat)
    (n : Nat) (h : read_line stream buf = .ok (out, n, rest)) :
    ∃ app, out = buf ++ app ∧ n = app.length := by
  unfold read_line at h
  have h2 := Except.ok.inj h
  simp only [Prod.mk.injEq] at h2
  obtain ⟨ho, hn, hr⟩ := h2
  exact ⟨(takeLine stream).1, ho.symm, hn.symm⟩

/-- C9 (witness): a read into the non-empty buffer `[1, 2]`. -/
theorem read_line_appends_without_clearing_witness :
    ∃ app, [1, 2, 104, 10] = [1, 2] ++ app ∧ 2 = app.length :=
  read_line_appends_without_clearing [104, 10, 99] [1, 2] [1, 2, 104, 10]
    [99] 2 rfl

/-- C5: whenever `write_all` returns success, the peer has received the
entire buffer (appended to whatever it had received before); partial
acceptances by the OS are retried inside the loop and never surface as a
successful partial write. -/
theorem write_all_ok_wrote_whole_buffer :
    ∀ (steps : List WriteStep) (peer buf out : List Nat),
      write_all steps peer buf = .ok out → out = peer ++ buf := by
  intro steps
  induction steps with
  | nil =>
    intro peer buf out h
    cases buf with
    | nil =>
      simp only [write_all] at h
      have := Except.ok.inj h
      simp [this]
    | cons b bs => simp [write_all] at h
  | cons s rest ih =>
    intro peer buf out h
    cases buf with
    | nil =>
      simp only [write_all] at h
      have := Except.ok.inj h
      simp [this]
    | cons b bs =>
      cases s with
      | fail e => simp [write_all] at h
      | accept k =>
        rw [write_all] at h
        split_ifs at h with hk
        have h3 := ih (peer ++ (b :: bs).take k) ((b :: bs).drop k) out h
        rw [h3, List.append_assoc, List.take_append_drop]

/-- C5 (witness): a 5-byte buffer delivered through two partial writes of
2 and 3 bytes. -/
theorem write_all_ok_wrote_whole_buffer_witness :
    ([9, 1, 2, 3, 4, 5] : List Nat) = [9] ++ [1, 2, 3, 4, 5] :=
  write_all_ok_wrote_whole_buffer [.accept 2, .accept 3] [9] [1, 2, 3, 4, 5]
    [9, 1, 2, 3, 4, 5] (by decide)

/-- C3: on both platforms, a failing connect attempt is returned as an
error whose kind is exactly the underlying OS error's kind and whose
message contains the attempted endpoint path (the socket path on unix, the
attempted pipe path on windows). -/
theorem connect_error_keeps_kind_and_path (path : List Char) (e : IoError)
    (osOpen : List Char → Except IoError Unit)
    (hw : osOpen (windowsPipePath path) = .error e) :
    (∃ a b, connect_inner_unix path (.error e) =
        .error ⟨e.kind, a ++ path ++ b⟩) ∧
    (∃ a b, connect_inner_windows path osOpen =
        .error ⟨e.kind, a ++ windowsPipePath path ++ b⟩) := by
  constructor
  · refine ⟨"Failed to connect to mpv socket at '".data,
      "': ".data ++ e.msg, ?_⟩
    simp [connect_inner_unix, Except.mapError, wrapUnixError,
      List.append_assoc]
  · refine ⟨"Failed to connect to mpv pipe at '".data,
      "': ".data ++ e.msg, ?_⟩
    simp [connect_inner_windows, hw, Except.mapError, wrapWindowsError,
      List.append_assoc]

/-- C3 (witness): a `NotFound` failure connecting to `/tmp/x`. -/
theorem connect_error_keeps_kind_and_path_witness :
    (∃ a b, connect_inner_unix "/tmp/x".data
        (.error ⟨ErrorKind.notFound, "No such file or directory".data⟩) =
          .error ⟨ErrorKind.notFound, a ++ "/tmp/x".data ++ b⟩) ∧
    (∃ a b, connect_inner_windows "/tmp/x".data
        (fun _ =>
          .error ⟨ErrorKind.notFound, "No such file or directory".data⟩) =
          .error ⟨ErrorKind.notFound,
            a ++ windowsPipePath "/tmp/x".data ++ b⟩) :=
  connect_error_keeps_kind_and_path "/tmp/x".data
    ⟨ErrorKind.notFound, "No such file or directory".data⟩
    (fun _ => .error ⟨ErrorKind.notFound, "No such file or directory".data⟩)
    rfl

/-- C4 (counterexample): the windows branch does NOT prepend the namespace
to the supplied path: for `/tmp/mpv-socket` the opened pipe path is
`\\.\pipe\mpv-socket` (namespace plus final component), not
`\\.\pipe\/tmp/mpv-socket` (namespace plus the whole path). -/
theorem windows_prepend_whole_path_cex :
    windowsPipePath "/tmp/mpv-socket".data ≠
      pipeNS ++ "/tmp/mpv-socket".data ∧
    windowsPipePath "/tmp/mpv-socket".data = pipeNS ++ "mpv-socket".data := by
  decide

/-- C4 (amended): a path already beginning with `\\.\pipe\` is used
unchanged; a path lacking the namespace is normalized by prepending the
namespace to the path's final component — `Path::file_name`, with fallback
`mpv-socket` — not to the whole path. -/
theorem windowsPipePath_normalizes (path : List Char) :
    (startsWith path pipeNS = true → windowsPipePath path = path) ∧
    (startsWith path pipeNS = false →
      windowsPipePath path =
        pipeNS ++ (file_name path).getD "mpv-socket".data) := by
  constructor
  · intro h; simp [windowsPipePath, h]
  · intro h; simp [windowsPipePath, h]

/-- C4 (witness): a path already in the namespace, and one outside it. -/
theorem windowsPipePath_normalizes_witness :
    windowsPipePath "\\\\.\\pipe\\foo".data = "\\\\.\\pipe\\foo".data ∧
    windowsPipePath "/tmp/mpv-socket".data =
      pipeNS ++ (file_name "/tmp/mpv-socket".data).getD "mpv-socket".data :=
  ⟨(windowsPipePath_normalizes "\\\\.\\pipe\\foo".data).1 (by decide),
   (windowsPipePath_normalizes "/tmp/mpv-socket".data).2 (by decide)⟩

/-- C8: for a path outside the pipe namespace whose final component `n` is
a normal name (no separators, not empty, not `.`, not `..`), the pipe name
is the namespace plus `n` alone — every directory component `d` is
discarded; and when no file name can be extracted (the path `/`, or a path
ending in `..`), the pipe name falls back to `mpv-socket`. -/
theorem windows_pipe_name_final_component (d n : List Char) (sep : Char)
    (hsep : isSepChar sep = true) (hn : ∀ c ∈ n, isSepChar c = false)
    (hne : n ≠ []) (hdot : n ≠ ['.']) (hdd : n ≠ ['.', '.'])
    (hpre : startsWith (d ++ sep :: n) pipeNS = false) :
    windowsPipePath (d ++ sep :: n) = pipeNS ++ n ∧
    windowsPipePath "/".data = pipeNS ++ "mpv-socket".data ∧
    (startsWith (d ++ sep :: ['.', '.']) pipeNS = false →
      windowsPipePath (d ++ sep :: ['.', '.']) =
        pipeNS ++ "mpv-socket".data) := by
  refine ⟨?_, by decide, ?_⟩
  · simp only [windowsPipePath, hpre, Bool.false_eq_true, if_false]
    rw [file_name_last_component d n sep hsep hn hne hdot]
    simp [hdd]
  · intro hp2
    simp only [windowsPipePath, hp2, Bool.false_eq_true, if_false]
    rw [file_name_last_component d ['.', '.'] sep hsep (by decide)
      (by decide) (by decide)]
    simp

/-- C8 (witness): the path `/tmp/mpv-socket` keeps only `mpv-socket`; the
paths `/` and `/tmp/..` fall back to `mpv-socket`. -/
theorem windows_pipe_name_final_component_witness :
    windowsPipePath ("/tmp".data ++ '/' :: "mpv-socket".data) =
      pipeNS ++ "mpv-socket".data ∧
    windowsPipePath "/".data = pipeNS ++ "mpv-socket".data ∧
    windowsPipePath ("/tmp".data ++ '/' :: ['.', '.']) =
      pipeNS ++ "mpv-socket".data :=
  ⟨(windows_pipe_name_final_component "/tmp".data "mpv-socket".data '/'
      (by decide) (by decide) (by decide) (by decide) (by decide)
      (by decide)).1,
   (windows_pipe_name_final_component "/tmp".data "mpv-socket".data '/'
      (by decide) (by decide) (by decide) (by decide) (by decide)
      (by decide)).2.1,
   (windows_pipe_name_final_component "/tmp".data "mpv-socket".data '/'
      (by decide) (by decide) (by decide) (by decide) (by decide)
      (by decide)).2.2 (by decide)⟩

/-- C6: with `expected_pid = P` against an endpoint owned by `Q ≠ P`, no
Session is created — establishment rejects with `IdentityMismatch` carrying
the expected and observed pids, no command is sent, and the transport is
closed immediately; with `expected_pid` absent, verification is a no-op and
establishment succeeds (the transport connect having succeeded). -/
theorem identity_mismatch_never_creates_session (P Q : Nat) :
    (Q ≠ P →
      establishSession (.ok ()) (some P) Q =
        ⟨.error (.identityMismatch P Q), [], true⟩) ∧
    establishSession (.ok ()) none Q = ⟨.ok (), [], false⟩ := by
  constructor
  · intro h
    have hne : ¬ P = Q := fun hpq => h hpq.symm
    simp [establishSession, verifyIdentity, hne]
  · rfl

/-- C6 (witness): `expected_pid = 1` against an endpoint owned by pid 2. -/
theorem identity_mismatch_never_creates_session_witness :
    establishSession (.ok ()) (some 1) 2 =
      ⟨.error (.identityMismatch 1 2), [], true⟩ ∧
    establishSession (.ok ()) none 2 = ⟨.ok (), [], false⟩ :=
  ⟨(identity_mismatch_never_creates_session 1 2).1 (by decide),
   (identity_mismatch_never_creates_session 1 2).2⟩

/-- C7: the hosting process exits with status 1 and reports a fatal error
exactly when Session establishment failed (connect or identity check);
otherwise it does not take the fatal path, and the per-request outcomes the
established session serves never influence the exit status. -/
theorem fatal_exit_only_on_establishment_failure (est : EstablishOutcome)
    (reqs reqs2 : List (Except IoError (List Char))) :
    (mainRun est reqs = (1, true) ∨ mainRun est reqs = (0, false)) ∧
    (mainRun est reqs = (1, true) ↔ ∃ e, est.result = .error e) ∧
    mainRun est reqs = mainRun est reqs2 := by
  cases hr : est.result with
  | error e => simp [mainRun, run_server, hr]
  | ok u => simp [mainRun, run_server, hr]

/-- C10: with no caller-supplied values, the parsed configuration holds the
platform default socket path (`/tmp/mpv-socket` on unix,
`\\.\pipe\mpv-socket` on windows), port 61777, encoder path `ffmpeg`, and
no expected owning pid (identity verification opted out). -/
theorem args_defaults :
    parseArgs false none none none none =
      ⟨defaultSocketPathUnix, 61777, "ffmpeg".data, none⟩ ∧
    parseArgs true none none none none =
      ⟨defaultSocketPathWindows, 61777, "ffmpeg".data, none⟩ ∧
    defaultSocketPathUnix = "/tmp/mpv-socket".data ∧
    defaultSocketPathWindows = "\\\\.\\pipe\\mpv-socket".data :=
  ⟨rfl, rfl, rfl, rfl⟩

end SubtitleMiner
